import Mathlib

/-!
Shallow embedding of a FastAPI push-notification backend: the
subscriber table, VAPID claims derivation, signed push dispatch with
outcome handling, and the periodic inactivity-scan job, together with
proofs of the behavioural properties stated in the design document.

Time is modelled as `Int` (an abstract instant); a scheduler tick is
modelled as happening at one instant `now`.
-/

/-- An endpoint descriptor as stored per subscriber: the optional
`endpoint` URL (`none` models a JSON object lacking the key) and opaque
encryption key material. -/
structure SubscriptionInfo where
  endpoint : Option String
  keys : List (String × String)
deriving DecidableEq

/-- VAPID claims: a subject plus an optional audience. -/
structure VapidClaims where
  sub : String
  aud : Option String
deriving DecidableEq

/-- The fixed contact identifier used as the `sub` claim. -/
def VAPID_SUBJECT : String := "mailto:you@example.com"

/-- The hostname substring that selects the FCM special case. -/
def FCM_MARKER : String := "fcm.googleapis.com"

/-- The fixed canonical audience used for FCM endpoints. -/
def FCM_AUD : String := "https://fcm.googleapis.com"

/-- Does the second list occur as a leading segment of the first? -/
def startsWithList : List Char → List Char → Bool
  | _, [] => true
  | [], _ :: _ => false
  | c :: cs, p :: ps => c == p && startsWithList cs ps

/-- Does `pat` occur as a contiguous segment of the list? -/
def containsList (pat : List Char) : List Char → Bool
  | [] => pat.isEmpty
  | c :: cs => startsWithList (c :: cs) pat || containsList pat cs

/-- Python's `pat in s` substring test. -/
def containsStr (s pat : String) : Bool := containsList pat.toList s.toList

/-- Characters allowed in a URL scheme, as in `urllib.parse`. -/
def isSchemeChar (c : Char) : Bool := c.isAlphanum || c == '+' || c == '-' || c == '.'

/-- Split a character list at the first colon, returning the part
before and after it. -/
def findColon : List Char → Option (List Char × List Char)
  | [] => none
  | c :: rest =>
    if c = ':' then some ([], rest)
    else
      match findColon rest with
      | some (pre, post) => some (c :: pre, post)
      | none => none

/-- `urllib.parse` scheme extraction: the text before the first colon is
the scheme when it is nonempty, starts with a letter and uses only
scheme characters; it is lowercased.  Otherwise no scheme is split off
and the whole input remains. -/
def splitSchemeRest (cs : List Char) : String × List Char :=
  match findColon cs with
  | some (c :: pre, post) =>
    if c.isAlpha && (c :: pre).all isSchemeChar then
      (String.mk ((c :: pre).map Char.toLower), post)
    else ("", cs)
  | _ => ("", cs)

/-- A character that terminates the netloc of a URL. -/
def isNetlocEnd (c : Char) : Bool := c == '/' || c == '?' || c == '#'

/-- `urllib.parse` netloc: present only after a leading `//`, running
until `/`, `?` or `#`. -/
def netlocOfRest : List Char → List Char
  | '/' :: '/' :: r => r.takeWhile (fun c => !isNetlocEnd c)
  | _ => []

/-- The string `f"{parsed.scheme}://{parsed.netloc}"` computed by
`send_push_notification`'s claims helper for `parsed = urlparse(url)`. -/
def urlOrigin (url : String) : String :=
  (splitSchemeRest url.toList).1 ++ "://" ++ String.mk (netlocOfRest (splitSchemeRest url.toList).2)

/-- `get_vapid_claims` from the source: no claims beyond the fixed
subject when the subscription is absent or lacks an `endpoint` key;
the fixed FCM audience when the endpoint URL contains the FCM host
substring; otherwise `scheme://netloc` of the endpoint URL. -/
def get_vapid_claims (si : Option SubscriptionInfo) : VapidClaims :=
  match si with
  | none => { sub := VAPID_SUBJECT, aud := none }
  | some info =>
    match info.endpoint with
    | none => { sub := VAPID_SUBJECT, aud := none }
    | some endpoint =>
      if containsStr endpoint FCM_MARKER then
        { sub := VAPID_SUBJECT, aud := some FCM_AUD }
      else
        { sub := VAPID_SUBJECT, aud := some (urlOrigin endpoint) }

/-- A row of the `users` table: primary key `id`, `name`, a nullable
subscription blob, and the last-active timestamp. -/
structure User where
  id : Nat
  name : String
  subscription : Option SubscriptionInfo
  last_active : Int
deriving DecidableEq

/-- The subscription status of a row, derived from descriptor presence
(the table has no separate status column). -/
inductive SubStatus
  | Subscribed
  | Unsubscribed
deriving DecidableEq

def User.status (u : User) : SubStatus :=
  match u.subscription with
  | some _ => SubStatus.Subscribed
  | none => SubStatus.Unsubscribed

/-- Apply `f` to the first row satisfying `p` (SQLAlchemy
`query.filter(...).first()` followed by a field update and commit). -/
def updateFirstWhere (p : User → Bool) (f : User → User) : List User → List User
  | [] => []
  | u :: rest => if p u then f u :: rest else u :: updateFirstWhere p f rest

/-- `db.query(User).filter(User.name == nm).first()`. -/
def getByName (db : List User) (nm : String) : Option User :=
  db.find? (fun u => u.name == nm)

/-- Row lookup by primary key. -/
def getById (db : List User) (k : Nat) : Option User :=
  db.find? (fun u => u.id == k)

/-- A fresh autoincrement primary key. -/
def nextId (db : List User) : Nat := db.foldl (fun m u => max m u.id) 0 + 1

/-- The `/subscribe` handler: create the row if the name is absent,
otherwise overwrite its subscription; either way `last_active = now`. -/
def subscribe (db : List User) (nm : String) (sub : SubscriptionInfo) (now : Int) : List User :=
  match getByName db nm with
  | none => db ++ [{ id := nextId db, name := nm, subscription := some sub, last_active := now }]
  | some _ =>
    updateFirstWhere (fun u => u.name == nm)
      (fun u => { u with subscription := some sub, last_active := now }) db

/-- The `/heartbeat` handler: set `last_active = now` when the row
exists; silently do nothing otherwise. -/
def heartbeat (db : List User) (nm : String) (now : Int) : List User :=
  match getByName db nm with
  | none => db
  | some _ =>
    updateFirstWhere (fun u => u.name == nm) (fun u => { u with last_active := now }) db

/-- The JSON payload built for one push. -/
structure Payload where
  title : String
  body : String
  icon : String
deriving DecidableEq

def NOTIFICATION_ICON : String := "https://via.placeholder.com/64"

/-- One network call to `webpush`: the subscription it addresses, the
payload, and the VAPID claims it is signed with. -/
structure PushAttempt where
  subscription : SubscriptionInfo
  payload : Payload
  claims : VapidClaims
deriving DecidableEq

/-- What the push transport reports back for one attempt: acceptance, a
`WebPushException` carrying an optional HTTP status, or any other
exception (timeout, network failure). -/
inductive TransportResult
  | success
  | webPushError (status : Option Nat)
  | otherError
deriving DecidableEq

/-- `remove_expired_subscription`: null out the subscription of the
first row whose stored blob equals the given one. -/
def remove_expired_subscription (db : List User) (sub : SubscriptionInfo) : List User :=
  updateFirstWhere (fun u => u.subscription == some sub) (fun u => { u with subscription := none }) db

/-- `send_push_notification`: returns the (possibly reconciled) table,
the boolean result, and the network attempt made (if any).  On a 410
response it removes the expired subscription itself; every failure
path returns `false`. -/
def send_push_notification (db : List User) (subscription : Option SubscriptionInfo)
    (title message : String) (transport : TransportResult) :
    List User × Bool × Option PushAttempt :=
  match subscription with
  | none => (db, false, none)
  | some s =>
    let att : PushAttempt :=
      { subscription := s
        payload := { title := title, body := message, icon := NOTIFICATION_ICON }
        claims := get_vapid_claims (some s) }
    match transport with
    | TransportResult.success => (db, true, some att)
    | TransportResult.webPushError st =>
      if st = some 410 then (remove_expired_subscription db s, false, some att)
      else (db, false, some att)
    | TransportResult.otherError => (db, false, some att)

/-- The state threaded through one `check_inactive_users` run: the
table plus the success/failure counters and the network attempts made
so far. -/
structure TickState where
  db : List User
  successful : Nat
  failed : Nat
  attempts : List (String × PushAttempt)
deriving DecidableEq

def TICK_TITLE : String := "Hey there!"

def TICK_BODY : String := "You haven't visited the app for a while. Come back!"

/-- The scan predicate: `last_active < now - threshold`
(i.e. `now - last_active > threshold`). -/
def staleAt (now threshold : Int) (u : User) : Bool :=
  decide (u.last_active < now - threshold)

/-- `db.query(User).filter(User.last_active < inactive_time).all()`:
every row past the inactivity threshold, whatever its subscription. -/
def inactiveQuery (db : List User) (now threshold : Int) : List User :=
  db.filter (staleAt now threshold)

/-- `user.last_active = datetime.utcnow(); db.commit()` for one row. -/
def setLastActiveById (db : List User) (k : Nat) (now : Int) : List User :=
  updateFirstWhere (fun u => u.id == k) (fun u => { u with last_active := now }) db

/-- One iteration of the scan loop over a snapshot row: re-read the row
(the ORM session expires objects on commit, so attribute reads reflect
the current table), skip it when it has no subscription, otherwise
dispatch once and reconcile: on success bump the counter and set the
row's `last_active` to now; on failure only count it. -/
def tickStep (tr : String → TransportResult) (now : Int) (st : TickState) (u : User) : TickState :=
  match getById st.db u.id with
  | none => st
  | some r =>
    match r.subscription with
    | none => st
    | some s =>
      match send_push_notification st.db (some s) TICK_TITLE TICK_BODY (tr r.name) with
      | (db1, true, att) =>
        { db := setLastActiveById db1 r.id now
          successful := st.successful + 1
          failed := st.failed
          attempts := st.attempts ++ (att.map (fun a => (r.name, a))).toList }
      | (db1, false, att) =>
        { db := db1
          successful := st.successful
          failed := st.failed + 1
          attempts := st.attempts ++ (att.map (fun a => (r.name, a))).toList }

/-- `check_inactive_users`: query the stale rows once, then loop. -/
def check_inactive_users (db : List User) (now threshold : Int)
    (tr : String → TransportResult) : TickState :=
  (inactiveQuery db now threshold).foldl (tickStep tr now)
    { db := db, successful := 0, failed := 0, attempts := [] }

/-- The attempt `check_inactive_users` makes for one stale row. -/
def tickAttempt (s : SubscriptionInfo) : PushAttempt :=
  { subscription := s
    payload := { title := TICK_TITLE, body := TICK_BODY, icon := NOTIFICATION_ICON }
    claims := get_vapid_claims (some s) }

/-- The attempt (if any) a row of the initial table is due in one tick:
one dispatch when it is stale and subscribed, none otherwise. -/
def expectedAttempt (now threshold : Int) (u : User) : Option (String × PushAttempt) :=
  if staleAt now threshold u then u.subscription.map (fun s => (u.name, tickAttempt s))
  else none

/-- A transport report that is a failure other than `Gone` (410):
an auth rejection (403), any other error response, or an exception
with no response attached. -/
def isNonGoneFailure : TransportResult → Bool
  | TransportResult.success => false
  | TransportResult.webPushError st => decide (st ≠ some 410)
  | TransportResult.otherError => true

def exEndpointA : SubscriptionInfo := { endpoint := some "https://e.example/a", keys := [] }

def exEndpointC : SubscriptionInfo := { endpoint := some "https://e.example/c", keys := [] }

def exShared : SubscriptionInfo := { endpoint := some "https://e.example/shared", keys := [] }

/-- Example table: alice stale and subscribed, bob stale with no
subscription, dave subscribed but recently active. -/
def aliceW : User := { id := 1, name := "alice", subscription := some exEndpointA, last_active := 0 }

def bobW : User := { id := 2, name := "bob", subscription := none, last_active := 0 }

def daveW : User := { id := 3, name := "dave", subscription := some exEndpointA, last_active := 99 }

def dbW : List User := [aliceW, bobW, daveW]

def carolW : User := { id := 1, name := "carol", subscription := some exEndpointC, last_active := 0 }

/-- Two rows sharing one descriptor; the transport reports `Gone` only
for bob's dispatch. -/
def aliceShared : User := { id := 1, name := "alice", subscription := some exShared, last_active := 0 }

def bobShared : User := { id := 2, name := "bob", subscription := some exShared, last_active := 0 }

def trGoneForBob : String → TransportResult :=
  fun n => if n = "bob" then TransportResult.webPushError (some 410) else TransportResult.success

theorem findColon_split (pre rest : List Char) (h : ':' ∉ pre) :
    findColon (pre ++ ':' :: rest) = some (pre, rest) := by
  induction pre with
  | nil => simp [findColon]
  | cons c cs ih =>
    have hc : ¬ (c = ':') := by
      intro hh
      exact h (by simp [hh])
    have hcs : ':' ∉ cs := fun hm => h (List.mem_cons_of_mem c hm)
    simp [findColon, hc, ih hcs]

theorem takeWhile_append_all (p : Char → Bool) (l1 l2 : List Char)
    (h1 : l1.all p = true) (h2 : l2 = [] ∨ p l2.headI = false) :
    (l1 ++ l2).takeWhile p = l1 := by
  induction l1 with
  | nil =>
    rcases h2 with h | h
    · simp [h]
    · cases l2 with
      | nil => simp
      | cons c cs =>
        simp only [List.headI] at h
        simp [List.takeWhile, h]
  | cons c cs ih =>
    simp only [List.all_cons, Bool.and_eq_true] at h1
    simp [List.takeWhile, h1.1, ih h1.2]

theorem splitSchemeRest_split (c0 : Char) (stl rest : List Char)
    (halpha : c0.isAlpha = true)
    (hscheme : (c0 :: stl).all isSchemeChar = true)
    (hnc : ':' ∉ (c0 :: stl)) :
    splitSchemeRest (c0 :: stl ++ ':' :: rest)
      = (String.mk ((c0 :: stl).map Char.toLower), rest) := by
  have hfc := findColon_split (c0 :: stl) rest hnc
  unfold splitSchemeRest
  rw [hfc]
  simp [halpha, hscheme]

theorem urlOrigin_split (c0 : Char) (stl host path : List Char)
    (halpha : c0.isAlpha = true)
    (hscheme : (c0 :: stl).all isSchemeChar = true)
    (hlower : (c0 :: stl).map Char.toLower = c0 :: stl)
    (hhost : host.all (fun c => !isNetlocEnd c) = true)
    (hpath : path = [] ∨ isNetlocEnd path.headI = true) :
    urlOrigin (String.mk (c0 :: stl ++ ':' :: '/' :: '/' :: (host ++ path)))
      = String.mk (c0 :: stl) ++ "://" ++ String.mk host := by
  have hnc : ':' ∉ (c0 :: stl) := by
    intro hm
    have h2 : isSchemeChar ':' = true := List.all_eq_true.mp hscheme ':' hm
    simp [isSchemeChar] at h2
  have htl : (String.mk (c0 :: stl ++ ':' :: '/' :: '/' :: (host ++ path))).toList
      = c0 :: stl ++ ':' :: ('/' :: '/' :: (host ++ path)) := rfl
  have hsp := splitSchemeRest_split c0 stl ('/' :: '/' :: (host ++ path)) halpha hscheme hnc
  have hnet : netlocOfRest ('/' :: '/' :: (host ++ path)) = host := by
    show (host ++ path).takeWhile (fun c => !isNetlocEnd c) = host
    apply takeWhile_append_all _ _ _ hhost
    rcases hpath with h | h
    · exact Or.inl h
    · exact Or.inr (by simp [h])
  unfold urlOrigin
  rw [htl, hsp, hnet, hlower]

/-- Claim C1: for every endpoint descriptor containing an endpoint URL,
the signing claims' audience is the fixed canonical string
`https://fcm.googleapis.com` whenever the URL contains the vendor relay
hostname `fcm.googleapis.com`, and otherwise is `scheme://host` of the
endpoint URL with path and query stripped (the URL being given here by
its scheme, host and path/query components); the subject claim is
always the fixed contact identifier. -/
theorem C1_vapid_audience (keys : List (String × String)) (c0 : Char) (stl host path : List Char)
    (halpha : c0.isAlpha = true)
    (hscheme : (c0 :: stl).all isSchemeChar = true)
    (hlower : (c0 :: stl).map Char.toLower = c0 :: stl)
    (hhost : host.all (fun c => !isNetlocEnd c) = true)
    (hpath : path = [] ∨ isNetlocEnd path.headI = true) :
    get_vapid_claims (some { endpoint := some (String.mk (c0 :: stl ++ ':' :: '/' :: '/' :: (host ++ path))), keys := keys })
      = { sub := VAPID_SUBJECT,
          aud := some (if containsStr (String.mk (c0 :: stl ++ ':' :: '/' :: '/' :: (host ++ path))) FCM_MARKER
                       then FCM_AUD
                       else String.mk (c0 :: stl) ++ "://" ++ String.mk host) } := by
  have horigin := urlOrigin_split c0 stl host path halpha hscheme hlower hhost hpath
  unfold get_vapid_claims
  simp only [List.cons_append] at horigin ⊢
  by_cases hc : containsStr (String.mk (c0 :: (stl ++ ':' :: '/' :: '/' :: (host ++ path)))) FCM_MARKER = true
  · simp [hc]
  · simp [hc, horigin]

/-- Witness for C1: the audience rule evaluated on the concrete Mozilla
push endpoint `https://updates.push.services.mozilla.com/wpush/v2/abc`
and on a concrete FCM endpoint. -/
theorem C1_vapid_audience_witness :
    (('h' : Char).isAlpha = true
      ∧ ('h' :: "ttps".toList).all isSchemeChar = true
      ∧ ('h' :: "ttps".toList).map Char.toLower = 'h' :: "ttps".toList
      ∧ ("updates.push.services.mozilla.com".toList).all (fun c => !isNetlocEnd c) = true
      ∧ ("/wpush/v2/abc".toList = [] ∨ isNetlocEnd ("/wpush/v2/abc".toList).headI = true))
    ∧ get_vapid_claims (some { endpoint := some (String.mk ('h' :: "ttps".toList ++ ':' :: '/' :: '/' :: ("updates.push.services.mozilla.com".toList ++ "/wpush/v2/abc".toList))), keys := [] })
      = { sub := VAPID_SUBJECT,
          aud := some (if containsStr (String.mk ('h' :: "ttps".toList ++ ':' :: '/' :: '/' :: ("updates.push.services.mozilla.com".toList ++ "/wpush/v2/abc".toList))) FCM_MARKER
                       then FCM_AUD
                       else String.mk ('h' :: "ttps".toList) ++ "://" ++ String.mk "updates.push.services.mozilla.com".toList) } :=
  ⟨⟨by decide, by decide, by decide, by decide, Or.inr (by decide)⟩,
    C1_vapid_audience [] 'h' "ttps".toList "updates.push.services.mozilla.com".toList "/wpush/v2/abc".toList
      (by decide) (by decide) (by decide) (by decide) (Or.inr (by decide))⟩

theorem updateFirstWhere_append_none (p : User → Bool) (f : User → User)
    (front tail : List User) (h : ∀ v ∈ front, p v = false) :
    updateFirstWhere p f (front ++ tail) = front ++ updateFirstWhere p f tail := by
  induction front with
  | nil => simp
  | cons x xs ih =>
    have hx := h x (by simp)
    simp [updateFirstWhere, hx, ih (fun v hv => h v (by simp [hv]))]

theorem updateFirstWhere_cons_pos (p : User → Bool) (f : User → User)
    (u : User) (rest : List User) (h : p u = true) :
    updateFirstWhere p f (u :: rest) = f u :: rest := by
  simp [updateFirstWhere, h]

theorem find?_mid (p : User → Bool) (pre post : List User) (u : User)
    (h : ∀ v ∈ pre, p v = false) (hu : p u = true) :
    (pre ++ u :: post).find? p = some u := by
  induction pre with
  | nil => simp [List.find?, hu]
  | cons x xs ih =>
    have hx := h x (by simp)
    simp [List.find?, hx, ih (fun v hv => h v (by simp [hv]))]

theorem find?_split (p : User → Bool) (l : List User) (u : User)
    (h : l.find? p = some u) :
    ∃ pre post, l = pre ++ u :: post ∧ (∀ v ∈ pre, p v = false) ∧ p u = true := by
  induction l with
  | nil => simp [List.find?] at h
  | cons x xs ih =>
    cases hx : p x with
    | true =>
      simp [List.find?, hx] at h
      exact ⟨[], xs, by simp [h], by simp, h ▸ hx⟩
    | false =>
      simp [List.find?, hx] at h
      obtain ⟨pre, post, hsplit, hpre, hpu⟩ := ih h
      exact ⟨x :: pre, post, by simp [hsplit], by
        intro v hv
        rcases List.mem_cons.mp hv with hv | hv
        · exact hv ▸ hx
        · exact hpre v hv, hpu⟩

theorem tickStep_notFound (tr : String → TransportResult) (now : Int) (st : TickState)
    (u : User) (h1 : getById st.db u.id = none) :
    tickStep tr now st u = st := by
  simp only [tickStep, h1]

theorem tickStep_skip (tr : String → TransportResult) (now : Int) (st : TickState)
    (u r : User) (h1 : getById st.db u.id = some r) (h2 : r.subscription = none) :
    tickStep tr now st u = st := by
  simp only [tickStep, h1, h2]

theorem tickStep_success (tr : String → TransportResult) (now : Int) (st : TickState)
    (u r : User) (s : SubscriptionInfo)
    (h1 : getById st.db u.id = some r) (h2 : r.subscription = some s)
    (h3 : tr r.name = TransportResult.success) :
    tickStep tr now st u =
      { db := setLastActiveById st.db r.id now
        successful := st.successful + 1
        failed := st.failed
        attempts := st.attempts ++ [(r.name, tickAttempt s)] } := by
  simp only [tickStep, h1, h2, h3, send_push_notification]
  simp [tickAttempt]

theorem tickStep_gone (tr : String → TransportResult) (now : Int) (st : TickState)
    (u r : User) (s : SubscriptionInfo)
    (h1 : getById st.db u.id = some r) (h2 : r.subscription = some s)
    (h3 : tr r.name = TransportResult.webPushError (some 410)) :
    tickStep tr now st u =
      { db := remove_expired_subscription st.db s
        successful := st.successful
        failed := st.failed + 1
        attempts := st.attempts ++ [(r.name, tickAttempt s)] } := by
  simp only [tickStep, h1, h2, h3, send_push_notification]
  simp [tickAttempt]

theorem tickStep_fail (tr : String → TransportResult) (now : Int) (st : TickState)
    (u r : User) (s : SubscriptionInfo)
    (h1 : getById st.db u.id = some r) (h2 : r.subscription = some s)
    (h3 : isNonGoneFailure (tr r.name) = true) :
    tickStep tr now st u =
      { db := st.db
        successful := st.successful
        failed := st.failed + 1
        attempts := st.attempts ++ [(r.name, tickAttempt s)] } := by
  cases htr : tr r.name with
  | success => rw [htr] at h3; simp [isNonGoneFailure] at h3
  | webPushError stc =>
    rw [htr] at h3
    have h410 : ¬ (stc = some 410) := by
      intro hh
      rw [hh] at h3
      simp [isNonGoneFailure] at h3
    simp only [tickStep, h1, h2, htr, send_push_notification]
    simp [h410, tickAttempt]
  | otherError =>
    simp only [tickStep, h1, h2, htr, send_push_notification]
    simp [tickAttempt]

theorem getById_mid (front rest : List User) (u : User)
    (h : ∀ v ∈ front, (v.id == u.id) = false) :
    getById (front ++ u :: rest) u.id = some u :=
  find?_mid _ _ _ _ h (by simp)

theorem nodup_mid_front (front rest : List User) (u : User)
    (h : ((front ++ u :: rest).map User.id).Nodup) :
    ∀ v ∈ front, (v.id == u.id) = false := by
  intro v hv
  have hne : v.id ≠ u.id := by
    intro he
    simp only [List.map_append, List.map_cons] at h
    rcases List.nodup_append.mp h with ⟨h1, h2, hdis⟩
    exact hdis (List.mem_map_of_mem User.id hv) (by simp [he])
  simp [hne]

theorem updateFirstWhere_split (p : User → Bool) (f : User → User)
    (hid : ∀ x, (f x).id = x.id) (front rest : List User) (u : User) (hu : p u = true) :
    ∃ front2, updateFirstWhere p f (front ++ u :: rest) = front2 ++ rest
      ∧ front2.map User.id = (front ++ [u]).map User.id := by
  induction front with
  | nil =>
    refine ⟨[f u], ?_, ?_⟩
    · simp [updateFirstWhere, hu]
    · simp [hid]
  | cons x xs ih =>
    by_cases hx : p x = true
    · refine ⟨f x :: (xs ++ [u]), ?_, ?_⟩
      · simp [updateFirstWhere, hx]
      · simp [hid]
    · obtain ⟨f2, heq, hmap⟩ := ih
      refine ⟨x :: f2, ?_, ?_⟩
      · simp [updateFirstWhere, hx, heq]
      · simp [hmap]

theorem getById_updateFirstWhere (p : User → Bool) (f : User → User)
    (hid : ∀ x, (f x).id = x.id) (l : List User) (k : Nat) :
    getById (updateFirstWhere p f l) k = getById l k
    ∨ ∃ r, getById l k = some r ∧ getById (updateFirstWhere p f l) k = some (f r) := by
  induction l with
  | nil => left; rfl
  | cons x xs ih =>
    by_cases hx : p x = true
    · by_cases hk : (x.id == k) = true
      · right
        refine ⟨x, ?_, ?_⟩
        · simp [getById, List.find?, hk]
        · simp [getById, updateFirstWhere, hx, List.find?, hid, hk]
      · left
        simp [getById, updateFirstWhere, hx, List.find?, hid, hk]
    · by_cases hk : (x.id == k) = true
      · left
        simp [getById, updateFirstWhere, hx, List.find?, hk]
      · rcases ih with hsame | ⟨r, hget, hupd⟩
        · left
          simp only [getById, updateFirstWhere, hx, if_false] at *
          simp [List.find?, hk, hsame]
        · right
          refine ⟨r, ?_, ?_⟩
          · simp [getById, List.find?, hk] at hget ⊢
            exact hget
          · simp only [getById, updateFirstWhere, hx, if_false] at *
            simp [List.find?, hk, hupd]

theorem tickStep_keeps_lastActive (tr : String → TransportResult) (now : Int) (st : TickState)
    (u : User) (k : Nat) (r0 : User)
    (h : getById st.db k = some r0) (hla : r0.last_active = now) :
    ∃ r1, getById (tickStep tr now st u).db k = some r1 ∧ r1.last_active = now := by
  cases hById : getById st.db u.id with
  | none =>
    rw [tickStep_notFound tr now st u hById]
    exact ⟨r0, h, hla⟩
  | some r =>
    cases hsub : r.subscription with
    | none =>
      rw [tickStep_skip tr now st u r hById hsub]
      exact ⟨r0, h, hla⟩
    | some s =>
      cases htr : tr r.name with
      | success =>
        rw [tickStep_success tr now st u r s hById hsub htr]
        simp only [setLastActiveById]
        rcases getById_updateFirstWhere (fun v => v.id == r.id)
            (fun v => { v with last_active := now }) (fun x => rfl) st.db k with
          hsame | ⟨r2, hget, hupd⟩
        · exact ⟨r0, hsame.trans h, hla⟩
        · exact ⟨{ r2 with last_active := now }, hupd, rfl⟩
      | webPushError stc =>
        by_cases h410 : stc = some 410
        · rw [h410] at htr
          rw [tickStep_gone tr now st u r s hById hsub htr]
          simp only [remove_expired_subscription]
          rcases getById_updateFirstWhere (fun v => v.subscription == some s)
              (fun v => { v with subscription := none }) (fun x => rfl) st.db k with
            hsame | ⟨r2, hget, hupd⟩
          · exact ⟨r0, hsame.trans h, hla⟩
          · have hr2 : r2 = r0 := Option.some.inj (hget.symm.trans h)
            exact ⟨{ r2 with subscription := none }, hupd, by simp [hr2, hla]⟩
        · have hng : isNonGoneFailure (tr r.name) = true := by
            rw [htr]; simp [isNonGoneFailure, h410]
          rw [tickStep_fail tr now st u r s hById hsub hng]
          exact ⟨r0, h, hla⟩
      | otherError =>
        have hng : isNonGoneFailure (tr r.name) = true := by
          rw [htr]; simp [isNonGoneFailure]
        rw [tickStep_fail tr now st u r s hById hsub hng]
        exact ⟨r0, h, hla⟩

theorem foldl_keeps_lastActive (tr : String → TransportResult) (now : Int) (k : Nat) :
    ∀ (l : List User) (st : TickState) (r0 : User),
    getById st.db k = some r0 → r0.last_active = now →
    ∃ r1, getById ((l.foldl (tickStep tr now) st).db) k = some r1 ∧ r1.last_active = now := by
  intro l
  induction l with
  | nil =>
    intro st r0 h hla
    exact ⟨r0, h, hla⟩
  | cons x xs ih =>
    intro st r0 h hla
    obtain ⟨r1, h1, hla1⟩ := tickStep_keeps_lastActive tr now st x k r0 h hla
    exact ih (tickStep tr now st x) r1 h1 hla1

theorem tick_go (tr : String → TransportResult) (now th : Int) :
    ∀ (suffix front : List User) (ns nf : Nat) (atts : List (String × PushAttempt)),
    ((front ++ suffix).map User.id).Nodup →
    ((List.foldl (tickStep tr now) ⟨front ++ suffix, ns, nf, atts⟩
        (suffix.filter (staleAt now th))).attempts
        = atts ++ suffix.filterMap (expectedAttempt now th))
    ∧ (((List.foldl (tickStep tr now) ⟨front ++ suffix, ns, nf, atts⟩
        (suffix.filter (staleAt now th))).db).map User.id = (front ++ suffix).map User.id)
    ∧ (∀ u ∈ suffix, staleAt now th u = true → ∀ s, u.subscription = some s →
        tr u.name = TransportResult.success →
        ∃ r, getById (List.foldl (tickStep tr now) ⟨front ++ suffix, ns, nf, atts⟩
            (suffix.filter (staleAt now th))).db u.id = some r ∧ r.last_active = now) := by
  intro suffix
  induction suffix with
  | nil =>
    intro front ns nf atts hnd
    refine ⟨by simp, by simp, ?_⟩
    intro u hu
    simp at hu
  | cons u rest ih =>
    intro front ns nf atts hnd
    have hfrontne : ∀ v ∈ front, (v.id == u.id) = false := nodup_mid_front front rest u hnd
    have hById : getById (front ++ u :: rest) u.id = some u := getById_mid front rest u hfrontne
    cases hstale : staleAt now th u with
    | false =>
      have hsf : (u :: rest).filter (staleAt now th) = rest.filter (staleAt now th) := by
        simp [List.filter_cons, hstale]
      have hassoc : front ++ u :: rest = (front ++ [u]) ++ rest := by simp
      have hnd2 : (((front ++ [u]) ++ rest).map User.id).Nodup := by
        rw [← hassoc]; exact hnd
      obtain ⟨ha, hb, hc⟩ := ih (front ++ [u]) ns nf atts hnd2
      rw [hsf, hassoc]
      refine ⟨?_, ?_, ?_⟩
      · rw [ha]
        simp [List.filterMap_cons, expectedAttempt, hstale]
      · exact hb
      · intro v hv hstv s hsv htrv
        rcases List.mem_cons.mp hv with hv | hv
        · rw [hv] at hstv
          rw [hstale] at hstv
          cases hstv
        · exact hc v hv hstv s hsv htrv
    | true =>
      have hsf : (u :: rest).filter (staleAt now th) = u :: rest.filter (staleAt now th) := by
        simp [List.filter_cons, hstale]
      rw [hsf, List.foldl_cons]
      cases hsub : u.subscription with
      | none =>
        have hstep : tickStep tr now ⟨front ++ u :: rest, ns, nf, atts⟩ u
            = ⟨front ++ u :: rest, ns, nf, atts⟩ :=
          tickStep_skip tr now _ u u hById hsub
        rw [hstep]
        have hassoc : front ++ u :: rest = (front ++ [u]) ++ rest := by simp
        have hnd2 : (((front ++ [u]) ++ rest).map User.id).Nodup := by
          rw [← hassoc]; exact hnd
        obtain ⟨ha, hb, hc⟩ := ih (front ++ [u]) ns nf atts hnd2
        rw [hassoc]
        refine ⟨?_, ?_, ?_⟩
        · rw [ha]
          simp [List.filterMap_cons, expectedAttempt, hstale, hsub]
        · exact hb
        · intro v hv hstv s hsv htrv
          rcases List.mem_cons.mp hv with hv | hv
          · rw [hv] at hsv
            rw [hsub] at hsv
            cases hsv
          · exact hc v hv hstv s hsv htrv
      | some s =>
        cases htr : tr u.name with
        | success =>
          have hstep : tickStep tr now ⟨front ++ u :: rest, ns, nf, atts⟩ u
              = ⟨front ++ { u with last_active := now } :: rest, ns + 1, nf,
                 atts ++ [(u.name, tickAttempt s)]⟩ := by
            rw [tickStep_success tr now _ u u s hById hsub htr]
            simp only [setLastActiveById]
            rw [updateFirstWhere_append_none _ _ _ _ hfrontne,
                updateFirstWhere_cons_pos _ _ _ _ (by simp)]
          rw [hstep]
          have hassoc : front ++ { u with last_active := now } :: rest
              = (front ++ [{ u with last_active := now }]) ++ rest := by simp
          have hids : ((front ++ [{ u with last_active := now }]) ++ rest).map User.id
              = (front ++ u :: rest).map User.id := by simp
          have hnd2 : (((front ++ [{ u with last_active := now }]) ++ rest).map User.id).Nodup := by
            rw [hids]; exact hnd
          obtain ⟨ha, hb, hc⟩ :=
            ih (front ++ [{ u with last_active := now }]) (ns + 1) nf
              (atts ++ [(u.name, tickAttempt s)]) hnd2
          rw [hassoc]
          refine ⟨?_, ?_, ?_⟩
          · rw [ha]
            simp [List.filterMap_cons, expectedAttempt, hstale, hsub]
          · rw [hb, hids]
          · intro v hv hstv s2 hsv htrv
            rcases List.mem_cons.mp hv with hv | hv
            · subst hv
              have hstart : getById ((front ++ [{ v with last_active := now }]) ++ rest) v.id
                  = some { v with last_active := now } := by
                rw [← hassoc]
                exact getById_mid front rest { v with last_active := now } hfrontne
              exact foldl_keeps_lastActive tr now v.id _ _ _ hstart rfl
            · exact hc v hv hstv s2 hsv htrv
        | webPushError stc =>
          by_cases h410 : stc = some 410
          · subst h410
            have hstep0 := tickStep_gone tr now ⟨front ++ u :: rest, ns, nf, atts⟩ u u s hById hsub htr
            obtain ⟨front2, heq, hmap⟩ :=
              updateFirstWhere_split (fun v => v.subscription == some s)
                (fun v => { v with subscription := none }) (fun x => rfl) front rest u
                (by simp [hsub])
            have hstep : tickStep tr now ⟨front ++ u :: rest, ns, nf, atts⟩ u
                = ⟨front2 ++ rest, ns, nf + 1, atts ++ [(u.name, tickAttempt s)]⟩ := by
              rw [hstep0]
              simp only [remove_expired_subscription]
              rw [heq]
            rw [hstep]
            have hids : (front2 ++ rest).map User.id = (front ++ u :: rest).map User.id := by
              simp only [List.map_append, hmap]
              simp
            have hnd2 : ((front2 ++ rest).map User.id).Nodup := by
              rw [hids]; exact hnd
            obtain ⟨ha, hb, hc⟩ := ih front2 ns (nf + 1) (atts ++ [(u.name, tickAttempt s)]) hnd2
            refine ⟨?_, ?_, ?_⟩
            · rw [ha]
              simp [List.filterMap_cons, expectedAttempt, hstale, hsub]
            · rw [hb, hids]
            · intro v hv hstv s2 hsv htrv
              rcases List.mem_cons.mp hv with hv | hv
              · rw [hv] at htrv
                rw [htr] at htrv
                cases htrv
              · exact hc v hv hstv s2 hsv htrv
          · have hng : isNonGoneFailure (tr u.name) = true := by
              rw [htr]; simp [isNonGoneFailure, h410]
            have hstep : tickStep tr now ⟨front ++ u :: rest, ns, nf, atts⟩ u
                = ⟨front ++ u :: rest, ns, nf + 1, atts ++ [(u.name, tickAttempt s)]⟩ :=
              tickStep_fail tr now _ u u s hById hsub hng
            rw [hstep]
            have hassoc : front ++ u :: rest = (front ++ [u]) ++ rest := by simp
            have hnd2 : (((front ++ [u]) ++ rest).map User.id).Nodup := by
              rw [← hassoc]; exact hnd
            obtain ⟨ha, hb, hc⟩ := ih (front ++ [u]) ns (nf + 1)
              (atts ++ [(u.name, tickAttempt s)]) hnd2
            rw [hassoc]
            refine ⟨?_, ?_, ?_⟩
            · rw [ha]
              simp [List.filterMap_cons, expectedAttempt, hstale, hsub]
            · exact hb
            · intro v hv hstv s2 hsv htrv
              rcases List.mem_cons.mp hv with hv | hv
              · rw [hv] at htrv
                rw [htr] at htrv
                cases htrv
              · exact hc v hv hstv s2 hsv htrv
        | otherError =>
          have hng : isNonGoneFailure (tr u.name) = true := by
            rw [htr]; simp [isNonGoneFailure]
          have hstep : tickStep tr now ⟨front ++ u :: rest, ns, nf, atts⟩ u
              = ⟨front ++ u :: rest, ns, nf + 1, atts ++ [(u.name, tickAttempt s)]⟩ :=
            tickStep_fail tr now _ u u s hById hsub hng
          rw [hstep]
          have hassoc : front ++ u :: rest = (front ++ [u]) ++ rest := by simp
          have hnd2 : (((front ++ [u]) ++ rest).map User.id).Nodup := by
            rw [← hassoc]; exact hnd
          obtain ⟨ha, hb, hc⟩ := ih (front ++ [u]) ns (nf + 1)
            (atts ++ [(u.name, tickAttempt s)]) hnd2
          rw [hassoc]
          refine ⟨?_, ?_, ?_⟩
          · rw [ha]
            simp [List.filterMap_cons, expectedAttempt, hstale, hsub]
          · exact hb
          · intro v hv hstv s2 hsv htrv
            rcases List.mem_cons.mp hv with hv | hv
            · rw [hv] at htrv
              rw [htr] at htrv
              cases htrv
            · exact hc v hv hstv s2 hsv htrv

/-- Claim C8: `subscribe` (upsert) creates the subscriber if absent and
otherwise overwrites the first row of that name, in both cases setting
`last_active = now` and storing the descriptor (hence derived status
`Subscribed`); in particular re-subscribing an `Unsubscribed` row
returns it to `Subscribed` with `last_active` reset to `now`. -/
theorem C8_upsert (db : List User) (nm : String) (sub : SubscriptionInfo) (now : Int) :
    ((∀ v ∈ db, v.name ≠ nm) →
      subscribe db nm sub now
        = db ++ [{ id := nextId db, name := nm, subscription := some sub, last_active := now }])
    ∧ (∀ pre u post, db = pre ++ u :: post → (∀ v ∈ pre, v.name ≠ nm) → u.name = nm →
        subscribe db nm sub now
          = pre ++ { u with subscription := some sub, last_active := now } :: post)
    ∧ (∀ u : User,
        ({ u with subscription := some sub, last_active := now } : User).status
          = SubStatus.Subscribed) := by
  refine ⟨?_, ?_, ?_⟩
  · intro habs
    have hnone : getByName db nm = none := by
      apply List.find?_eq_none.mpr
      intro v hv
      simp [habs v hv]
    simp [subscribe, hnone]
  · intro pre u post hdb hpre hu
    have hfind : getByName db nm = some u := by
      rw [hdb]
      apply find?_mid
      · intro v hv
        simp [hpre v hv]
      · simp [hu]
    rw [subscribe, hfind, hdb]
    rw [updateFirstWhere_append_none _ _ _ _ (fun v hv => by simp [hpre v hv])]
    rw [updateFirstWhere_cons_pos _ _ _ _ (by simp [hu])]
  · intro u
    simp [User.status]

/-- Witness for C8: creating `"alice"` in a table that lacks her, and
re-subscribing an `Unsubscribed` row `"dave"` (descriptor `none`). -/
theorem C8_upsert_witness :
    ((∀ v ∈ ([{ id := 1, name := "dave", subscription := none, last_active := 5 }] : List User),
        v.name ≠ "alice")
      ∧ subscribe [{ id := 1, name := "dave", subscription := none, last_active := 5 }] "alice"
          { endpoint := some "https://e.example/1", keys := [] } 50
        = [{ id := 1, name := "dave", subscription := none, last_active := 5 },
           { id := 2, name := "alice",
             subscription := some { endpoint := some "https://e.example/1", keys := [] },
             last_active := 50 }])
    ∧ subscribe [{ id := 1, name := "dave", subscription := none, last_active := 5 }] "dave"
          { endpoint := some "https://e.example/1", keys := [] } 50
        = [{ id := 1, name := "dave",
             subscription := some { endpoint := some "https://e.example/1", keys := [] },
             last_active := 50 }] := by
  refine ⟨⟨by decide, ?_⟩, ?_⟩
  · exact (C8_upsert [{ id := 1, name := "dave", subscription := none, last_active := 5 }]
      "alice" { endpoint := some "https://e.example/1", keys := [] } 50).1 (by decide)
  · exact (C8_upsert [{ id := 1, name := "dave", subscription := none, last_active := 5 }]
      "dave" { endpoint := some "https://e.example/1", keys := [] } 50).2.1
      [] { id := 1, name := "dave", subscription := none, last_active := 5 } [] rfl
      (by simp) rfl

/-- Claim C9: a heartbeat for an existing subscriber sets `last_active`
to `now`; under a monotone clock (the row's previous `last_active` is
at most `now`) the stored value never decreases. -/
theorem C9_heartbeat_monotone (db : List User) (nm : String) (now : Int) (u : User)
    (hu : getByName db nm = some u)
    (hclock : u.last_active ≤ now) :
    ∃ r, getByName (heartbeat db nm now) nm = some r
      ∧ r.last_active = now
      ∧ u.last_active ≤ r.last_active := by
  obtain ⟨pre, post, hdb, hpre, hpu⟩ := find?_split _ _ _ hu
  refine ⟨{ u with last_active := now }, ?_, rfl, hclock⟩
  rw [heartbeat, hu, hdb]
  rw [updateFirstWhere_append_none _ _ _ _ hpre]
  rw [updateFirstWhere_cons_pos _ _ _ _ hpu]
  unfold getByName
  apply find?_mid _ _ _ _ hpre
  simpa using hpu

/-- Witness for C9: two heartbeats in succession for `"erin"`. -/
theorem C9_heartbeat_monotone_witness :
    (getByName [{ id := 3, name := "erin", subscription := none, last_active := 7 }] "erin"
        = some { id := 3, name := "erin", subscription := none, last_active := 7 }
      ∧ (7 : Int) ≤ 9)
    ∧ ∃ r, getByName
        (heartbeat [{ id := 3, name := "erin", subscription := none, last_active := 7 }] "erin" 9)
        "erin" = some r
      ∧ r.last_active = 9
      ∧ (7 : Int) ≤ r.last_active := by
  refine ⟨⟨by decide, by decide⟩, ?_⟩
  exact C9_heartbeat_monotone
    [{ id := 3, name := "erin", subscription := none, last_active := 7 }] "erin" 9
    { id := 3, name := "erin", subscription := none, last_active := 7 } (by decide) (by decide)

/-- Claim C10 (amended): the claims helper returns only the fixed
subject (no audience) for an absent subscription or one lacking the
`endpoint` key; the dispatcher proceeds to attempt delivery with these
audience-less claims when the descriptor is present but lacks
`endpoint`, whereas for an absent descriptor it returns `false`
immediately, making no attempt and leaving the table untouched. -/
theorem C10_audienceless_claims (db : List User) (keys : List (String × String))
    (title msg : String) (tr : TransportResult) :
    get_vapid_claims none = { sub := VAPID_SUBJECT, aud := none }
    ∧ get_vapid_claims (some { endpoint := none, keys := keys })
        = { sub := VAPID_SUBJECT, aud := none }
    ∧ (send_push_notification db (some { endpoint := none, keys := keys }) title msg tr).2.2
        = some { subscription := { endpoint := none, keys := keys }
                 payload := { title := title, body := msg, icon := NOTIFICATION_ICON }
                 claims := { sub := VAPID_SUBJECT, aud := none } }
    ∧ (send_push_notification db none title msg tr).2.2 = none
    ∧ (send_push_notification db none title msg tr).2.1 = false
    ∧ (send_push_notification db none title msg tr).1 = db := by
  refine ⟨rfl, rfl, ?_, rfl, rfl, rfl⟩
  cases tr with
  | success => simp [send_push_notification, get_vapid_claims]
  | webPushError st =>
    by_cases h410 : st = some 410
    · simp [send_push_notification, get_vapid_claims, h410]
    · simp [send_push_notification, get_vapid_claims, h410]
  | otherError => simp [send_push_notification, get_vapid_claims]

/-- Counterexample to C10 as stated: with an absent subscription the
dispatcher does not "still proceed to attempt delivery" — it fails
fast, making no network attempt. -/
theorem C10_counterexample :
    (send_push_notification [] none "t" "m" TransportResult.success).2.2 = none
    ∧ (send_push_notification [] none "t" "m" TransportResult.success).2.1 = false := by
  exact ⟨rfl, rfl⟩

/-- Counterexample to C2 as stated: on a 410 (`Gone`) response the
dispatcher itself mutates the subscriber table. -/
theorem C2_counterexample :
    (send_push_notification
        [{ id := 1, name := "carol",
           subscription := some { endpoint := some "https://e.example/c", keys := [] },
           last_active := 0 }]
        (some { endpoint := some "https://e.example/c", keys := [] }) "t" "m"
        (TransportResult.webPushError (some 410))).1
      ≠ [{ id := 1, name := "carol",
           subscription := some { endpoint := some "https://e.example/c", keys := [] },
           last_active := 0 }] := by
  decide

/-- Claim C2 (amended): the dispatcher's send leaves the table
untouched for the delivered, auth-rejected and transient outcomes; on
`Gone` (410) it performs the store reconciliation itself, clearing the
first stored subscription equal to the dispatched one. -/
theorem C2_dispatch_effects (db : List User) (s : SubscriptionInfo)
    (title msg : String) (tr : TransportResult) :
    (tr ≠ TransportResult.webPushError (some 410) →
      (send_push_notification db (some s) title msg tr).1 = db)
    ∧ (send_push_notification db (some s) title msg (TransportResult.webPushError (some 410))).1
        = remove_expired_subscription db s := by
  constructor
  · intro hne
    cases tr with
    | success => rfl
    | webPushError st =>
      have h410 : ¬ (st = some 410) := by
        intro hh
        exact hne (by rw [hh])
      simp [send_push_notification, h410]
    | otherError => rfl
  · simp [send_push_notification]

/-- Witness for C2: a successful delivery leaves a concrete one-row
table unchanged. -/
theorem C2_dispatch_effects_witness :
    (TransportResult.success ≠ TransportResult.webPushError (some 410))
    ∧ (send_push_notification
        [{ id := 1, name := "carol",
           subscription := some { endpoint := some "https://e.example/c", keys := [] },
           last_active := 0 }]
        (some { endpoint := some "https://e.example/c", keys := [] }) "t" "m"
        TransportResult.success).1
      = [{ id := 1, name := "carol",
           subscription := some { endpoint := some "https://e.example/c", keys := [] },
           last_active := 0 }] := by
  refine ⟨by decide, ?_⟩
  exact (C2_dispatch_effects _ _ "t" "m" TransportResult.success).1 (by decide)

/-- Claim C4 (amended): on a `Gone` (410) outcome the reconciliation
clears the stored subscription of the first row whose descriptor
equals the dispatched one — so when the affected subscriber is that
first row (in particular when descriptors are unique), its descriptor
is cleared and its derived status becomes `Unsubscribed`, all other
rows unchanged. -/
theorem C4_gone_invalidates (pre post : List User) (u : User) (s : SubscriptionInfo)
    (title msg : String)
    (hu : u.subscription = some s)
    (hpre : ∀ v ∈ pre, v.subscription ≠ some s) :
    (send_push_notification (pre ++ u :: post) (some s) title msg
        (TransportResult.webPushError (some 410))).1
      = pre ++ { u with subscription := none } :: post
    ∧ ({ u with subscription := none } : User).status = SubStatus.Unsubscribed := by
  constructor
  · show remove_expired_subscription (pre ++ u :: post) s = _
    rw [remove_expired_subscription]
    rw [updateFirstWhere_append_none _ _ _ _ (fun v hv => by simp [hpre v hv])]
    rw [updateFirstWhere_cons_pos _ _ _ _ (by simp [hu])]
  · simp [User.status]

/-- Witness for C4 (amended): carol is the only row with her
descriptor; a 410 clears it. -/
theorem C4_gone_invalidates_witness :
    (({ id := 1, name := "carol",
        subscription := some { endpoint := some "https://e.example/c", keys := [] },
        last_active := 0 } : User).subscription
        = some { endpoint := some "https://e.example/c", keys := [] })
    ∧ (send_push_notification
        [{ id := 1, name := "carol",
           subscription := some { endpoint := some "https://e.example/c", keys := [] },
           last_active := 0 }]
        (some { endpoint := some "https://e.example/c", keys := [] }) "t" "m"
        (TransportResult.webPushError (some 410))).1
      = [{ id := 1, name := "carol", subscription := none, last_active := 0 }] := by
  refine ⟨rfl, ?_⟩
  have h := (C4_gone_invalidates []
    [] { id := 1, name := "carol",
         subscription := some { endpoint := some "https://e.example/c", keys := [] },
         last_active := 0 }
    { endpoint := some "https://e.example/c", keys := [] } "t" "m" rfl (by simp)).1
  simpa using h

/-- Claim C6: in one scheduler tick over a table with distinct primary
keys, the attempts made are exactly one dispatch per row that is past
the threshold and has a subscription, in table order — no duplicates,
no omissions — and a scanned row with no subscription contributes no
network attempt at all. -/
theorem C6_tick_attempts (db : List User) (now th : Int) (tr : String → TransportResult)
    (hids : (db.map User.id).Nodup) :
    (check_inactive_users db now th tr).attempts
      = db.filterMap (expectedAttempt now th) := by
  have h := (tick_go tr now th db [] 0 0 [] (by simpa using hids)).1
  simpa [check_inactive_users, inactiveQuery] using h

/-- Witness for C6: on the example table only alice is dispatched —
bob (no subscription) and dave (recently active) are not. -/
theorem C6_tick_attempts_witness :
    (dbW.map User.id).Nodup
    ∧ (check_inactive_users dbW 100 1 (fun _ => TransportResult.success)).attempts
        = dbW.filterMap (expectedAttempt 100 1) :=
  ⟨by decide, C6_tick_attempts dbW 100 1 (fun _ => TransportResult.success) (by decide)⟩

/-- Claim C7: when the dispatch for a stale subscribed row is delivered
during a tick, the row's `last_active` is the tick's time `now` once
the tick completes (not its old value), so the row cannot satisfy the
staleness test again at any time `t` with `t - now ≤ threshold`. -/
theorem C7_delivered_resets (db : List User) (now th : Int) (tr : String → TransportResult)
    (u : User) (s : SubscriptionInfo)
    (hids : (db.map User.id).Nodup)
    (hmem : u ∈ db)
    (hstale : staleAt now th u = true)
    (hsub : u.subscription = some s)
    (htr : tr u.name = TransportResult.success) :
    ∃ r, getById (check_inactive_users db now th tr).db u.id = some r
      ∧ r.last_active = now
      ∧ ∀ t : Int, t - now ≤ th → staleAt t th r = false := by
  obtain ⟨r, hr, hla⟩ :=
    (tick_go tr now th db [] 0 0 [] (by simpa using hids)).2.2 u hmem hstale s hsub htr
  refine ⟨r, ?_, hla, ?_⟩
  · simpa [check_inactive_users, inactiveQuery] using hr
  · intro t ht
    simp only [staleAt, hla, decide_eq_false_iff_not, not_lt]
    omega

/-- Witness for C7: alice is delivered at time 100, her `last_active`
becomes 100, and she is not stale again through time 101. -/
theorem C7_delivered_resets_witness :
    ((dbW.map User.id).Nodup ∧ aliceW ∈ dbW ∧ staleAt 100 1 aliceW = true
      ∧ aliceW.subscription = some exEndpointA)
    ∧ ∃ r, getById (check_inactive_users dbW 100 1 (fun _ => TransportResult.success)).db aliceW.id
          = some r
        ∧ r.last_active = 100
        ∧ ∀ t : Int, t - 100 ≤ 1 → staleAt t 1 r = false :=
  ⟨⟨by decide, by decide, by decide, by decide⟩,
    C7_delivered_resets dbW 100 1 (fun _ => TransportResult.success) aliceW exEndpointA
      (by decide) (by decide) (by decide) (by decide) rfl⟩

/-- Claim C5: an auth-rejected (403) or transient (non-410 error, or a
response-less exception such as a timeout) outcome leaves the table
unchanged, both in the dispatcher itself and in the scheduler's
reconciliation of that outcome, which only counts the failure. -/
theorem C5_failure_no_mutation (st : TickState) (u r : User) (s : SubscriptionInfo)
    (tr : String → TransportResult) (now : Int)
    (h1 : getById st.db u.id = some r)
    (h2 : r.subscription = some s)
    (h3 : isNonGoneFailure (tr r.name) = true) :
    (send_push_notification st.db (some s) TICK_TITLE TICK_BODY (tr r.name)).1 = st.db
    ∧ (tickStep tr now st u).db = st.db
    ∧ (tickStep tr now st u).failed = st.failed + 1 := by
  have hstep := tickStep_fail tr now st u r s h1 h2 h3
  refine ⟨?_, by rw [hstep], by rw [hstep]⟩
  cases htr : tr r.name with
  | success => rw [htr] at h3; simp [isNonGoneFailure] at h3
  | webPushError stc =>
    have h410 : ¬ (stc = some 410) := by
      intro hh
      rw [htr, hh] at h3
      simp [isNonGoneFailure] at h3
    simp [send_push_notification, h410]
  | otherError => rfl

/-- Witness for C5: a 403 for carol leaves her row untouched and only
bumps the failure counter. -/
theorem C5_failure_no_mutation_witness :
    (getById [carolW] carolW.id = some carolW
      ∧ carolW.subscription = some exEndpointC
      ∧ isNonGoneFailure ((fun _ : String => TransportResult.webPushError (some 403)) carolW.name)
          = true)
    ∧ ((send_push_notification [carolW] (some exEndpointC) TICK_TITLE TICK_BODY
          ((fun _ : String => TransportResult.webPushError (some 403)) carolW.name)).1 = [carolW]
      ∧ (tickStep (fun _ => TransportResult.webPushError (some 403)) 100
          ⟨[carolW], 0, 0, []⟩ carolW).db = [carolW]
      ∧ (tickStep (fun _ => TransportResult.webPushError (some 403)) 100
          ⟨[carolW], 0, 0, []⟩ carolW).failed = 0 + 1) :=
  ⟨⟨by decide, by decide, by decide⟩,
    C5_failure_no_mutation ⟨[carolW], 0, 0, []⟩ carolW carolW exEndpointC
      (fun _ => TransportResult.webPushError (some 403)) 100
      (by decide) (by decide) (by decide)⟩

/-- Counterexample to C3 as stated: the scan query filters only on
`last_active`, not on subscription status — after carol's `Gone`
invalidation she still appears in a later scan result even though her
derived status is `Unsubscribed`. -/
theorem C3_counterexample :
    ∃ u ∈ inactiveQuery
        (check_inactive_users [carolW] 100 1
          (fun _ => TransportResult.webPushError (some 410))).db 300 1,
      u.name = "carol" ∧ u.subscription = none ∧ u.status = SubStatus.Unsubscribed := by
  decide

/-- Claim C3 (amended): the stale scan returns exactly the rows with
`now - last_active > threshold`, irrespective of subscription presence
or derived status; an invalidated subscriber therefore reappears in
later scan results (it is only skipped at dispatch time). -/
theorem C3_scan_by_time_only (db : List User) (now th : Int) (u : User) :
    u ∈ inactiveQuery db now th ↔ u ∈ db ∧ now - u.last_active > th := by
  rw [inactiveQuery, List.mem_filter]
  constructor
  · rintro ⟨h1, h2⟩
    simp only [staleAt, decide_eq_true_eq] at h2
    exact ⟨h1, by omega⟩
  · rintro ⟨h1, h2⟩
    refine ⟨h1, ?_⟩
    simp only [staleAt, decide_eq_true_eq]
    omega

/-- Counterexample to C4 as stated: alice and bob share one stored
descriptor; bob's dispatch gets `Gone`, but the reconciliation clears
the first matching row — alice — and bob (the affected subscriber)
stays `Subscribed` with his descriptor intact. -/
theorem C4_counterexample :
    trGoneForBob "bob" = TransportResult.webPushError (some 410)
    ∧ (check_inactive_users [aliceShared, bobShared] 100 1 trGoneForBob).attempts.map Prod.fst
        = ["alice", "bob"]
    ∧ getById (check_inactive_users [aliceShared, bobShared] 100 1 trGoneForBob).db 2
        = some bobShared
    ∧ bobShared.subscription = some exShared
    ∧ bobShared.status = SubStatus.Subscribed
    ∧ getById (check_inactive_users [aliceShared, bobShared] 100 1 trGoneForBob).db 1
        = some { aliceShared with subscription := none, last_active := 100 } := by
  decide
